import Mathlib

/-!
# Verification of the MP3 player library state manager

Shallow embedding of the catalog / playback core of the MP3 player app
(the `App` component variant with favorites and playlists).  The embedded
functions mirror, statement by statement, the JavaScript functions
`loadSavedData`, `playSong`, `stopSound`, `togglePlayPause`, `seekTo`,
`deleteSong`, `toggleFavorite`, `createPlaylist`, `deletePlaylist` and
`addToPlaylist`.

External collaborators are modelled explicitly:
* the durable key-value store (`AsyncStorage`) holds three independent
  records; a stored value is either missing, present-but-unparseable
  (`JSON.parse` throws) or present and parsed (`StoredVal`);
* the file store is a pair of oracles: `fileExists` for
  `FileSystem.getInfoAsync(...).exists` and `deleteOk` for whether
  `FileSystem.deleteAsync` succeeds or throws;
* the audio engine (`expo-av`) is a pool of live handles;
  `Audio.Sound.createAsync` allocates a fresh handle (or throws, modelled
  by a `createOk` flag) and `unloadAsync` releases one.

React `useState` variables become fields of `AppState`.  JavaScript
`try { ... } catch` control flow becomes explicit early returns: a step
whose collaborator call throws stops executing the remainder of the
`try` block, keeping the state mutations already performed.
-/

/-- Song record as created by `pickSong`: `{ id, name, uri }`. -/
structure Song where
  id : String
  name : String
  uri : String
deriving DecidableEq, Repr

/-- Playlist record as created by `createPlaylist`:
`{ id, name, songs }` where `songs` is an ordered list of song ids. -/
structure Playlist where
  id : String
  name : String
  songs : List String
deriving DecidableEq, Repr

/-- Playback-session slice of the component state: the `sound` handle
(`Option` of an engine-handle number), `currentSong`, `isPlaying`,
`position` and `duration`. -/
structure Session where
  sound : Option Nat
  currentSong : Option Song
  isPlaying : Bool
  position : Nat
  duration : Nat
deriving DecidableEq, Repr

/-- The audio engine: the set of live handles (each tagged with the id of
the song it decodes) and a counter supplying fresh handle numbers. -/
structure Engine where
  liveHandles : List (Nat × String)
  nextHandle : Nat
deriving DecidableEq, Repr

/-- The full in-memory component state relevant to the claims. -/
structure AppState where
  songs : List Song
  favorites : List String
  playlists : List Playlist
  session : Session
  engine : Engine
deriving DecidableEq, Repr

/-- File-store oracle: `exa u` models `FileSystem.getInfoAsync(u).exists`
and `delOk u` models whether `FileSystem.deleteAsync(u)` returns
normally (`true`) or throws (`false`). -/
structure FS where
  exa : String → Bool
  delOk : String → Bool

/-- Outcome of `AsyncStorage.getItem` followed by `JSON.parse` for one
key: the key can be absent, present but unparseable (`JSON.parse`
throws), or present with a parsed value. -/
inductive StoredVal (α : Type) where
  | missing : StoredVal α
  | corrupt : StoredVal α
  | good : α → StoredVal α
deriving DecidableEq, Repr

/-- Value stored under a key, with the empty default for a missing key;
a corrupt value also maps to the default (used only to state theorems). -/
def StoredVal.getD {α : Type} : StoredVal α → α → α
  | .missing, d => d
  | .corrupt, d => d
  | .good v, _ => v

/-- The durable key-value store: the three records kept under
`@saved_songs`, `@favorites` and `@playlists`. -/
structure RawStore where
  songsVal : StoredVal (List Song)
  favoritesVal : StoredVal (List String)
  playlistsVal : StoredVal (List Playlist)
deriving DecidableEq, Repr

/-- The in-memory catalog produced by `loadSavedData`: the values the
`setSongs` / `setFavorites` / `setPlaylists` calls have left in the
component state (each starts at the `useState([])` default). -/
structure LoadedState where
  songs : List Song
  favorites : List String
  playlists : List Playlist
deriving DecidableEq, Repr

/-- Third block of `loadSavedData`: read `PLAYLISTS_KEY` and, if a value
is present, parse it and `setPlaylists`.  A corrupt value throws into
the surrounding `catch`, leaving playlists at the default. -/
def loadPlaylistsStep (songsAcc : List Song) (favAcc : List String)
    (store : RawStore) : LoadedState × RawStore :=
  match store.playlistsVal with
  | .missing => (⟨songsAcc, favAcc, []⟩, store)
  | .corrupt => (⟨songsAcc, favAcc, []⟩, store)
  | .good pls => (⟨songsAcc, favAcc, pls⟩, store)

/-- Second block of `loadSavedData`: read `FAVORITES_KEY` and, if a value
is present, parse it and `setFavorites`.  A corrupt value throws into the
surrounding `catch`: the playlists block never runs. -/
def loadFavoritesStep (songsAcc : List Song) (store : RawStore) :
    LoadedState × RawStore :=
  match store.favoritesVal with
  | .missing => loadPlaylistsStep songsAcc [] store
  | .corrupt => (⟨songsAcc, [], []⟩, store)
  | .good favs => loadPlaylistsStep songsAcc favs store

/-- Embedding of `loadSavedData` (the `initialize()` of the spec): one
`try` block that (1) reads and parses the saved songs, keeps the entries
whose backing file exists and re-persists the pruned list if any entry
was dropped, then (2) reads favorites, then (3) reads playlists.  A
`JSON.parse` failure anywhere jumps to the single `catch`, abandoning
the rest of the block. -/
def loadSavedData (fe : String → Bool) (store : RawStore) :
    LoadedState × RawStore :=
  match store.songsVal with
  | .missing => loadFavoritesStep [] store
  | .corrupt => (⟨[], [], []⟩, store)
  | .good saved =>
      let existing := saved.filter (fun s => fe s.uri)
      let store1 :=
        if existing.length != saved.length then
          { store with songsVal := .good existing }
        else store
      loadFavoritesStep existing store1

example :
    (loadSavedData (fun _ => true)
      ⟨.missing, .corrupt, .good [⟨"p1", "Mix", ["1"]⟩]⟩).1.playlists
      = [] := by decide

/-- Embedding of `stopSound`: if a handle is held, `unloadAsync` it
(release it from the engine) and clear `sound`, `currentSong`,
`isPlaying`, `position` and `duration`; otherwise do nothing. -/
def stopSound (st : AppState) : AppState :=
  match st.session.sound with
  | some h =>
      { st with
        engine := { st.engine with
          liveHandles := st.engine.liveHandles.filter (fun p => p.1 != h) },
        session := ⟨none, none, false, 0, 0⟩ }
  | none => st

/-- First half of `playSong`: `if (sound) await sound.unloadAsync()`.
The engine handle is released; the `sound` state variable itself is not
cleared by this statement. -/
def playSongRelease (st : AppState) : AppState :=
  match st.session.sound with
  | some h =>
      { st with
        engine := { st.engine with
          liveHandles := st.engine.liveHandles.filter (fun p => p.1 != h) } }
  | none => st

/-- Second half of `playSong` on the success path:
`Audio.Sound.createAsync` yields a fresh handle decoding `song`, then
`setSound`, `setCurrentSong`, `setIsPlaying(true)`. -/
def playSongAcquire (song : Song) (st : AppState) : AppState :=
  let n := st.engine.nextHandle
  { st with
    engine := ⟨st.engine.liveHandles ++ [(n, song.id)], n + 1⟩,
    session := { st.session with
      sound := some n, currentSong := some song, isPlaying := true } }

/-- Embedding of `playSong`: unload any current handle, then create a
new one.  `createOk = false` models `Audio.Sound.createAsync` throwing
(corrupt/unsupported file): the `catch` block only alerts, so the state
variables keep the values they already had; the Bool result records
whether the call succeeded. -/
def playSong (createOk : Bool) (song : Song) (st : AppState) :
    AppState × Bool :=
  let st1 := playSongRelease st
  match createOk with
  | true => (playSongAcquire song st1, true)
  | false => (st1, false)

/-- Embedding of `togglePlayPause`: no-op without a handle; otherwise
pause or resume (the `isPlaying` flag eventually flips via the status
callback, modelled synchronously as the only observable effect). -/
def togglePlayPause (st : AppState) : AppState :=
  match st.session.sound with
  | none => st
  | some _ =>
      { st with session := { st.session with isPlaying := !st.session.isPlaying } }

/-- Embedding of `seekTo`: commands the engine; the `position` state
variable is only updated by a later status callback, so the component
state is unchanged here. -/
def seekTo (_ms : Nat) (st : AppState) : AppState :=
  st

/-- First phase of `deleteSong` (lines before the file-store step):
`if (currentSong?.id === songId) await stopSound()`. -/
def deleteSongStopPhase (songId : String) (st : AppState) : AppState :=
  match st.session.currentSong with
  | some c => if c.id == songId then stopSound st else st
  | none => st

/-- File step of `deleteSong`: look up the song record, existence-check
its file and, when present, delete it; `false` means `deleteAsync`
threw.  A missing record or missing file is not an error. -/
def fileStepOk (fs : FS) (songId : String) (st : AppState) : Bool :=
  match st.songs.find? (fun s => s.id == songId) with
  | some song => if fs.exa song.uri then fs.delOk song.uri else true
  | none => true

/-- Remaining phase of `deleteSong`: delete the backing file if it
exists (a throwing `deleteAsync` jumps to the `catch`, abandoning every
later statement), then filter the song out of the song list, the
favorites and every playlist, persisting each structure (`saveFavorites`
runs only when the favorites list shrank).  The Bool records whether the
`try` block ran to completion. -/
def deleteSongCommitPhase (fs : FS) (songId : String) (st : AppState)
    (store : RawStore) : AppState × RawStore × Bool :=
  if fileStepOk fs songId st then
    let updatedSongs := st.songs.filter (fun s => s.id != songId)
    let updatedFavorites := st.favorites.filter (fun i => i != songId)
    let updatedPlaylists := st.playlists.map
      (fun pl => { pl with songs := pl.songs.filter (fun i => i != songId) })
    let memFavorites :=
      if updatedFavorites.length != st.favorites.length then updatedFavorites
      else st.favorites
    let store1 := { store with songsVal := .good updatedSongs }
    let store2 :=
      if updatedFavorites.length != st.favorites.length then
        { store1 with favoritesVal := .good updatedFavorites }
      else store1
    let store3 := { store2 with playlistsVal := .good updatedPlaylists }
    ({ st with
        songs := updatedSongs,
        favorites := memFavorites,
        playlists := updatedPlaylists }, store3, true)
  else
    (st, store, false)

/-- Embedding of `deleteSong`: stop playback first when the deleted song
is the current one, then run the file-store and catalog steps. -/
def deleteSong (fs : FS) (songId : String) (st : AppState)
    (store : RawStore) : AppState × RawStore × Bool :=
  deleteSongCommitPhase fs songId (deleteSongStopPhase songId st) store

/-- Embedding of `toggleFavorite`: flip membership of `songId` and
persist via `saveFavorites` (which also sets the state variable). -/
def toggleFavorite (songId : String) (st : AppState) (store : RawStore) :
    AppState × RawStore :=
  let updated :=
    if st.favorites.contains songId then st.favorites.filter (fun i => i != songId)
    else st.favorites ++ [songId]
  ({ st with favorites := updated }, { store with favoritesVal := .good updated })

/-- Validation failure raised by `createPlaylist` for a blank name. -/
inductive ValidationError where
  | emptyName : ValidationError
deriving DecidableEq, Repr

/-- Embedding of JavaScript `String.prototype.trim`: drop leading and
trailing whitespace characters. -/
def jsTrim (s : String) : String :=
  ⟨((s.data.dropWhile Char.isWhitespace).reverse.dropWhile
      Char.isWhitespace).reverse⟩

/-- Embedding of `createPlaylist`: an all-whitespace name fails (the
alert-and-return branch; JavaScript treats the empty trimmed string as
falsy) leaving the collection untouched; otherwise a playlist
`{ id, name: trimmed, songs: [] }` is appended.  `newId` stands for
`Date.now().toString()`. -/
def createPlaylist (name : String) (newId : String)
    (pls : List Playlist) : Except ValidationError (List Playlist) :=
  if jsTrim name = "" then .error .emptyName
  else .ok (pls ++ [⟨newId, jsTrim name, []⟩])

/-- Embedding of the confirmed branch of `deletePlaylist`: remove the
playlist with the given id and persist. -/
def deletePlaylist (playlistId : String) (st : AppState)
    (store : RawStore) : AppState × RawStore :=
  let updated := st.playlists.filter (fun p => p.id != playlistId)
  ({ st with playlists := updated },
   { store with playlistsVal := .good updated })

/-- Per-playlist body of the `playlists.map` inside `addToPlaylist`:
on the matching playlist, append the song id only when not already
present; every other playlist passes through unchanged. -/
def addToOne (playlistId songId : String) (pl : Playlist) : Playlist :=
  if pl.id == playlistId then
    if pl.songs.contains songId then pl
    else { pl with songs := pl.songs ++ [songId] }
  else pl

/-- Embedding of `addToPlaylist` (the `songToAdd` object is already in
hand, so only its id matters): map `addToOne` over the collection and
persist. -/
def addToPlaylist (playlistId songId : String)
    (pls : List Playlist) : List Playlist :=
  pls.map (addToOne playlistId songId)

/-- UI-level entry points relevant to the session/engine invariants,
with the outcomes of their collaborator calls baked into the action. -/
inductive Op where
  | play : Bool → Song → Op
  | stop : Op
  | toggle : Op
  | seek : Nat → Op
  | del : FS → String → Op
  | togFav : String → Op
  | newPl : String → String → Op
  | delPl : String → Op
  | addPl : String → String → Op

/-- One UI action applied to the component state and the store. -/
def stepOp (st : AppState) (store : RawStore) : Op → AppState × RawStore
  | .play ok song => ((playSong ok song st).1, store)
  | .stop => (stopSound st, store)
  | .toggle => (togglePlayPause st, store)
  | .seek ms => (seekTo ms st, store)
  | .del fs sid =>
      let r := deleteSong fs sid st store
      (r.1, r.2.1)
  | .togFav sid => toggleFavorite sid st store
  | .newPl name newId =>
      match createPlaylist name newId st.playlists with
      | .error _ => (st, store)
      | .ok pls =>
          ({ st with playlists := pls }, { store with playlistsVal := .good pls })
  | .delPl pid => deletePlaylist pid st store
  | .addPl pid sid =>
      let pls := addToPlaylist pid sid st.playlists
      ({ st with playlists := pls }, { store with playlistsVal := .good pls })

/-- Run a sequence of UI actions. -/
def runOps (st : AppState) (store : RawStore) : List Op → AppState × RawStore
  | [] => (st, store)
  | op :: ops =>
      let r := stepOp st store op
      runOps r.1 r.2 ops

/-- Invariant I5 with its bookkeeping: at most one engine handle is
live, and any live handle is the one held in `session.sound`. -/
def EngineInv (st : AppState) : Prop :=
  st.engine.liveHandles.length ≤ 1 ∧
    ∀ p ∈ st.engine.liveHandles, st.session.sound = some p.1

instance (st : AppState) : Decidable (EngineInv st) := by
  unfold EngineInv; infer_instance

/-- Reachable-state invariant of the component: whenever `currentSong`
is set, a `sound` handle reference is held (they are only ever set
together in `playSong` and cleared together in `stopSound`). -/
def SessionWF (st : AppState) : Prop :=
  st.session.currentSong.isSome → st.session.sound.isSome

instance (st : AppState) : Decidable (SessionWF st) := by
  unfold SessionWF; infer_instance

/-- Invariants I1 and I2: no favorite id and no playlist entry dangles
(every referenced id is the id of a song in the catalog). -/
def NoDangling (st : AppState) : Prop :=
  (∀ i ∈ st.favorites, ∃ s ∈ st.songs, s.id = i) ∧
    ∀ pl ∈ st.playlists, ∀ i ∈ pl.songs, ∃ s ∈ st.songs, s.id = i

/-! ## Shared concrete fixtures -/

/-- File store in which every file exists and deletion succeeds. -/
def fsOk : FS := ⟨fun _ => true, fun _ => true⟩

/-- File store in which every file exists but deletion always throws. -/
def fsFailDel : FS := ⟨fun _ => true, fun _ => false⟩

/-- Store with nothing saved yet. -/
def storeEmpty : RawStore := ⟨.missing, .missing, .missing⟩

/-- Idle playback session. -/
def idleSession : Session := ⟨none, none, false, 0, 0⟩

/-- Engine with no live handle. -/
def engine0 : Engine := ⟨[], 0⟩

/-! ## General helper lemmas -/

/-- A filter that keeps the full length keeps the full list. -/
theorem filter_eq_of_length_eq {α : Type} (l : List α) (p : α → Bool)
    (h : (l.filter p).length = l.length) : l.filter p = l :=
  (List.filter_sublist l).eq_of_length h

/-- The conditional save in `deleteSong`/`saveFavorites` leaves the
in-memory list extensionally equal to the filtered list. -/
theorem ite_filter_eq {α : Type} (l : List α) (p : α → Bool) :
    (if (l.filter p).length != l.length then l.filter p else l)
      = l.filter p := by
  by_cases h : (l.filter p).length = l.length
  · rw [if_neg (by simp [h]), filter_eq_of_length_eq l p h]
  · rw [if_pos (by simp [h])]

/-- The stop phase of `deleteSong` never touches the catalog fields. -/
theorem deleteSongStopPhase_catalog (s : String) (st : AppState) :
    (deleteSongStopPhase s st).songs = st.songs ∧
    (deleteSongStopPhase s st).favorites = st.favorites ∧
    (deleteSongStopPhase s st).playlists = st.playlists := by
  unfold deleteSongStopPhase stopSound
  cases st.session.currentSong with
  | none => exact ⟨rfl, rfl, rfl⟩
  | some c =>
      by_cases hc : (c.id == s) = true
      · cases st.session.sound <;> simp [hc]
      · simp [hc]

/-- The commit phase of `deleteSong` never touches session or engine. -/
theorem deleteSongCommitPhase_session (fs : FS) (s : String)
    (st : AppState) (store : RawStore) :
    (deleteSongCommitPhase fs s st store).1.session = st.session ∧
    (deleteSongCommitPhase fs s st store).1.engine = st.engine := by
  unfold deleteSongCommitPhase
  dsimp only
  split
  · exact ⟨rfl, rfl⟩
  · exact ⟨rfl, rfl⟩

/-! ## C8: createPlaylist validation -/

/-- C8: for every playlist collection and every name, a name that trims
to the empty string makes `createPlaylist` fail with a ValidationError
(so the collection is unchanged — the error carries no new collection),
and any other name appends exactly `{id := newId, name := trimmed,
songs := []}` to the unchanged existing playlists. -/
theorem createPlaylist_validates (name newId : String)
    (pls : List Playlist) :
    (jsTrim name = "" → createPlaylist name newId pls = .error .emptyName) ∧
    (jsTrim name ≠ "" →
      createPlaylist name newId pls
        = .ok (pls ++ [⟨newId, jsTrim name, []⟩])) := by
  constructor
  · intro h; simp [createPlaylist, h]
  · intro h; simp [createPlaylist, h]

/-- Witness for `createPlaylist_validates` at the spec's scenario
`createPlaylist("  ")` and at a non-blank name. -/
theorem createPlaylist_validates_witness :
    (jsTrim "  " = "" ∧
      createPlaylist "  " "9" [⟨"p1", "Mix", ["1"]⟩] = .error .emptyName) ∧
    (jsTrim " Jazz " ≠ "" ∧
      createPlaylist " Jazz " "9" [⟨"p1", "Mix", ["1"]⟩]
        = .ok [⟨"p1", "Mix", ["1"]⟩, ⟨"9", "Jazz", []⟩]) := by
  refine ⟨⟨by decide, (createPlaylist_validates "  " "9" _).1 (by decide)⟩,
    ⟨by decide, ?_⟩⟩
  have h := (createPlaylist_validates " Jazz " "9"
    [⟨"p1", "Mix", ["1"]⟩]).2 (by decide)
  rw [h]
  exact congrArg Except.ok (by decide)

/-! ## C7: addToPlaylist idempotence -/

/-- Applying the per-playlist add twice equals applying it once. -/
theorem addToOne_idem (p s : String) (pl : Playlist) :
    addToOne p s (addToOne p s pl) = addToOne p s pl := by
  by_cases hid : (pl.id == p) = true
  · by_cases hc : (pl.songs.contains s) = true
    · unfold addToOne
      rw [if_pos hid, if_pos hc, if_pos hid, if_pos hc]
    · unfold addToOne
      rw [if_pos hid, if_neg hc]
      dsimp only
      rw [if_pos hid, if_pos (show ((pl.songs ++ [s]).contains s) = true by simp)]
  · unfold addToOne
    rw [if_neg hid, if_neg hid]

/-- C7: `addToPlaylist` is idempotent; on a playlist with the target id
that satisfies I3 (the song occurs at most once beforehand) the result
holds the song exactly once; every playlist with a different id is
untouched; and any touched playlist keeps id, name, and its existing
entries in order, with at most the one appended id. -/
theorem addToPlaylist_idem (pls : List Playlist) (p s : String) :
    addToPlaylist p s (addToPlaylist p s pls) = addToPlaylist p s pls ∧
    (∀ pl ∈ pls, pl.id = p → pl.songs.count s ≤ 1 →
      addToOne p s pl ∈ addToPlaylist p s pls ∧
        (addToOne p s pl).songs.count s = 1) ∧
    (∀ pl, pl.id ≠ p → addToOne p s pl = pl) ∧
    (∀ pl, (addToOne p s pl).id = pl.id ∧
      (addToOne p s pl).name = pl.name ∧
      ((addToOne p s pl).songs = pl.songs ∨
        (addToOne p s pl).songs = pl.songs ++ [s])) := by
  refine ⟨?_, ?_, ?_, ?_⟩
  · unfold addToPlaylist
    rw [List.map_map]
    exact List.map_congr_left (fun pl _ => addToOne_idem p s pl)
  · intro pl hmem hid hcount
    refine ⟨List.mem_map_of_mem _ hmem, ?_⟩
    unfold addToOne
    rw [if_pos (by simp [hid])]
    by_cases hc : (pl.songs.contains s) = true
    · rw [if_pos hc]
      have hs : s ∈ pl.songs := by simpa using hc
      have := List.count_pos_iff.mpr hs
      omega
    · rw [if_neg hc]
      have hs : s ∉ pl.songs := by simpa using hc
      simp [List.count_append, List.count_eq_zero.mpr hs]
  · intro pl h
    unfold addToOne
    rw [if_neg (by simp [h])]
  · intro pl
    by_cases hid : (pl.id == p) = true
    · by_cases hc : (pl.songs.contains s) = true
      · unfold addToOne
        rw [if_pos hid, if_pos hc]
        exact ⟨rfl, rfl, Or.inl rfl⟩
      · unfold addToOne
        rw [if_pos hid, if_neg hc]
        exact ⟨rfl, rfl, Or.inr rfl⟩
    · unfold addToOne
      rw [if_neg hid]
      exact ⟨rfl, rfl, Or.inl rfl⟩

/-- Witness for `addToPlaylist_idem`: adding song `"2"` to playlist
`p1 = {id: "p1", name: "Mix", songs: ["1"]}` twice leaves it with
`["1", "2"]`, containing `"2"` exactly once. -/
theorem addToPlaylist_idem_witness :
    (addToPlaylist "p1" "2" (addToPlaylist "p1" "2" [⟨"p1", "Mix", ["1"]⟩])
      = addToPlaylist "p1" "2" [⟨"p1", "Mix", ["1"]⟩]) ∧
    ((⟨"p1", "Mix", ["1"]⟩ : Playlist) ∈ [(⟨"p1", "Mix", ["1"]⟩ : Playlist)] ∧
      (⟨"p1", "Mix", ["1"]⟩ : Playlist).id = "p1" ∧
      (⟨"p1", "Mix", ["1"]⟩ : Playlist).songs.count "2" ≤ 1) ∧
    (addToOne "p1" "2" ⟨"p1", "Mix", ["1"]⟩).songs.count "2" = 1 := by
  have h := addToPlaylist_idem [⟨"p1", "Mix", ["1"]⟩] "p1" "2"
  exact ⟨h.1, ⟨by decide, by decide, by decide⟩,
    (h.2.1 ⟨"p1", "Mix", ["1"]⟩ (by decide) (by decide) (by decide)).2⟩

/-! ## deleteSong helper lemmas -/

/-- When the file store never fails deletion, the file step succeeds. -/
theorem fileStepOk_of_delOk (fs : FS) (s : String) (st : AppState)
    (hdel : ∀ u, fs.delOk u = true) : fileStepOk fs s st = true := by
  unfold fileStepOk
  cases hfind : st.songs.find? (fun x => x.id == s) with
  | none => rfl
  | some song =>
      by_cases he : fs.exa song.uri = true
      · simp [he, hdel]
      · simp [he]

/-- When no song has the target id, the file step succeeds. -/
theorem fileStepOk_of_not_found (fs : FS) (s : String) (st : AppState)
    (hfind : st.songs.find? (fun x => x.id == s) = none) :
    fileStepOk fs s st = true := by
  unfold fileStepOk
  rw [hfind]

/-- Successful commit phase: the catalog is the filtered catalog and the
operation reports success. -/
theorem deleteSongCommitPhase_success (fs : FS) (s : String)
    (st : AppState) (store : RawStore)
    (hfo : fileStepOk fs s st = true) :
    (deleteSongCommitPhase fs s st store).1
      = { st with
          songs := st.songs.filter (fun x => x.id != s),
          favorites := st.favorites.filter (fun i => i != s),
          playlists := st.playlists.map
            (fun pl => { pl with
              songs := pl.songs.filter (fun i => i != s) }) } ∧
    (deleteSongCommitPhase fs s st store).2.2 = true := by
  unfold deleteSongCommitPhase
  rw [if_pos hfo]
  constructor
  · dsimp only
    rw [ite_filter_eq]
  · rfl

/-- Failed commit phase: nothing changes and failure is reported. -/
theorem deleteSongCommitPhase_fail (fs : FS) (s : String)
    (st : AppState) (store : RawStore)
    (hfo : fileStepOk fs s st = false) :
    deleteSongCommitPhase fs s st store = (st, store, false) := by
  unfold deleteSongCommitPhase
  rw [if_neg (by simp [hfo])]

/-! ## C2: deleteSong prunes the catalog -/

/-- C2: for every catalog state holding song id `s`, with a file store
whose deletions succeed, `deleteSong s` removes exactly the songs with
id `s` from the song list, `s` from the favorites and `s` from every
playlist's sequence, keeping every other song, favorite, playlist and
the order of surviving entries (they are the `filter` of the originals),
and the operation completes. -/
theorem deleteSong_prunes (fs : FS) (st : AppState) (store : RawStore)
    (s : String) (hex : s ∈ st.songs.map Song.id)
    (hdel : ∀ u, fs.delOk u = true) :
    (deleteSong fs s st store).1.songs
        = st.songs.filter (fun x => x.id != s) ∧
    (deleteSong fs s st store).1.favorites
        = st.favorites.filter (fun i => i != s) ∧
    (deleteSong fs s st store).1.playlists
        = st.playlists.map (fun pl => { pl with
            songs := pl.songs.filter (fun i => i != s) }) ∧
    (deleteSong fs s st store).2.2 = true := by
  have hstopc := deleteSongStopPhase_catalog s st
  have hsucc := deleteSongCommitPhase_success fs s
    (deleteSongStopPhase s st) store
    (fileStepOk_of_delOk fs s (deleteSongStopPhase s st) hdel)
  unfold deleteSong
  rw [hsucc.1]
  refine ⟨?_, ?_, ?_, hsucc.2⟩
  · dsimp only; rw [hstopc.1]
  · dsimp only; rw [hstopc.2.1]
  · dsimp only; rw [hstopc.2.2]

/-- Fixture: the spec's two-song catalog with one favorite and one
playlist. -/
def stC2 : AppState :=
  ⟨[⟨"1", "a.mp3", "u1"⟩, ⟨"2", "b.mp3", "u2"⟩], ["1"],
   [⟨"p1", "Mix", ["1", "2"]⟩], idleSession, engine0⟩

/-- Witness for `deleteSong_prunes`: the spec scenario — deleting song
`"2"` keeps song `"1"`, favorites `["1"]` and playlist `p1` with
`["1"]`. -/
theorem deleteSong_prunes_witness :
    ("2" ∈ stC2.songs.map Song.id) ∧
    (deleteSong fsOk "2" stC2 storeEmpty).1.songs
      = [⟨"1", "a.mp3", "u1"⟩] ∧
    (deleteSong fsOk "2" stC2 storeEmpty).1.favorites = ["1"] ∧
    (deleteSong fsOk "2" stC2 storeEmpty).1.playlists
      = [⟨"p1", "Mix", ["1"]⟩] ∧
    (deleteSong fsOk "2" stC2 storeEmpty).2.2 = true := by
  have h := deleteSong_prunes fsOk stC2 storeEmpty "2" (by decide)
    (fun _ => rfl)
  refine ⟨by decide, ?_, ?_, ?_, h.2.2.2⟩
  · rw [h.1]; decide
  · rw [h.2.1]; decide
  · rw [h.2.2.1]; decide

/-! ## C10: deleteSong on an unknown id -/

/-- Fixture: empty song list with a dangling favorite id `"x"`. -/
def stC10 : AppState := ⟨[], ["x"], [], idleSession, engine0⟩

/-- C10 counterexample: `"x"` is not the id of any song and nothing is
playing, yet `deleteSong "x"` changes the favorites set — it strips the
dangling favorite `"x"` — so the state is not left unchanged as
claimed. -/
theorem deleteSong_unknown_cex :
    stC10.songs = [] ∧ stC10.session.currentSong = none ∧
    stC10.favorites = ["x"] ∧
    (deleteSong fsOk "x" stC10 storeEmpty).1.favorites = [] := by decide

/-- C10 amended: `deleteSong` on an id that is neither a song id nor the
current song's id completes without error and leaves the song list, the
session and the engine unchanged; favorites and playlists are not left
untouched in general but merely have every (dangling) occurrence of the
id filtered out, so when I1 and I2 hold (no dangling references) the
whole state is unchanged. -/
theorem deleteSong_unknown_id (fs : FS) (st : AppState)
    (store : RawStore) (s : String)
    (hex : s ∉ st.songs.map Song.id)
    (hcur : ∀ c, st.session.currentSong = some c → c.id ≠ s) :
    (deleteSong fs s st store).2.2 = true ∧
    (deleteSong fs s st store).1.songs = st.songs ∧
    (deleteSong fs s st store).1.session = st.session ∧
    (deleteSong fs s st store).1.engine = st.engine ∧
    (deleteSong fs s st store).1.favorites
        = st.favorites.filter (fun i => i != s) ∧
    (deleteSong fs s st store).1.playlists
        = st.playlists.map (fun pl => { pl with
            songs := pl.songs.filter (fun i => i != s) }) ∧
    (s ∉ st.favorites → (∀ pl ∈ st.playlists, s ∉ pl.songs) →
      (deleteSong fs s st store).1 = st) := by
  have hids : ∀ x ∈ st.songs, x.id ≠ s := by
    intro x hx h
    exact hex (h ▸ List.mem_map_of_mem Song.id hx)
  have hstop : deleteSongStopPhase s st = st := by
    unfold deleteSongStopPhase
    cases hc : st.session.currentSong with
    | none => rfl
    | some c => exact if_neg (by simp [hcur c hc])
  have hfind : st.songs.find? (fun x => x.id == s) = none := by
    rw [List.find?_eq_none]
    intro x hx
    simp [hids x hx]
  have hsucc := deleteSongCommitPhase_success fs s st store
    (fileStepOk_of_not_found fs s st hfind)
  have hsongs : st.songs.filter (fun x => x.id != s) = st.songs :=
    List.filter_eq_self.mpr (fun x hx => by simp [hids x hx])
  unfold deleteSong
  rw [hstop, hsucc.1]
  refine ⟨hsucc.2, ?_, rfl, rfl, rfl, rfl, ?_⟩
  · dsimp only; exact hsongs
  · intro h1 h2
    have hfav : st.favorites.filter (fun i => i != s) = st.favorites :=
      List.filter_eq_self.mpr
        (fun i hi => by simp; intro h; exact h1 (h ▸ hi))
    have hpl : st.playlists.map (fun pl => { pl with
        songs := pl.songs.filter (fun i => i != s) }) = st.playlists := by
      have hone : ∀ pl ∈ st.playlists,
          ({ pl with songs := pl.songs.filter (fun i => i != s) }
            : Playlist) = pl := by
        intro pl hpl
        have : pl.songs.filter (fun i => i != s) = pl.songs :=
          List.filter_eq_self.mpr
            (fun i hi => by simp; intro h; exact h2 pl hpl (h ▸ hi))
        rw [this]
      rw [List.map_congr_left hone]
      exact List.map_id st.playlists
    rw [hsongs, hfav, hpl]

/-- Witness for `deleteSong_unknown_id`: deleting unknown id `"y"` from
the two-song catalog (which has no dangling references) succeeds and
changes nothing. -/
theorem deleteSong_unknown_id_witness :
    ("y" ∉ stC2.songs.map Song.id) ∧
    (deleteSong fsOk "y" stC2 storeEmpty).2.2 = true ∧
    (deleteSong fsOk "y" stC2 storeEmpty).1 = stC2 := by
  have h := deleteSong_unknown_id fsOk stC2 storeEmpty "y" (by decide)
    (fun c hc => Option.noConfusion hc)
  exact ⟨by decide, h.1, h.2.2.2.2.2.2 (by decide) (by decide)⟩

/-! ## C3: file-store failure during deleteSong -/

/-- Fixture: one song, favorited and listed in a playlist. -/
def stC3 : AppState :=
  ⟨[⟨"1", "a.mp3", "u1"⟩], ["1"], [⟨"p1", "Mix", ["1"]⟩],
   idleSession, engine0⟩

/-- C3 counterexample: when `deleteAsync` throws, `deleteSong "1"` jumps
to the `catch` before any catalog mutation, so song `"1"` stays in the
song list, the favorites and the playlist — the failed file deletion
does block the catalog-side pruning, contradicting the claim. -/
theorem deleteSong_filefail_cex :
    (deleteSong fsFailDel "1" stC3 storeEmpty).2.2 = false ∧
    (deleteSong fsFailDel "1" stC3 storeEmpty).1.songs = stC3.songs ∧
    (deleteSong fsFailDel "1" stC3 storeEmpty).1.favorites = ["1"] ∧
    (deleteSong fsFailDel "1" stC3 storeEmpty).1.playlists
      = [⟨"p1", "Mix", ["1"]⟩] := by decide

/-- C3 amended: if the file-store deletion of the song's backing file
fails, `deleteSong` reports the failure and aborts: the song list, the
favorites, every playlist and the persisted store are left exactly as
they were (only the stop-of-playback that precedes the file step has
happened).  Catalog pruning occurs only when the file step succeeds. -/
theorem deleteSong_filefail_aborts (fs : FS) (st : AppState)
    (store : RawStore) (s : String) (song : Song)
    (hfind : st.songs.find? (fun x => x.id == s) = some song)
    (hexa : fs.exa song.uri = true)
    (hdel : fs.delOk song.uri = false) :
    (deleteSong fs s st store).2.2 = false ∧
    (deleteSong fs s st store).1.songs = st.songs ∧
    (deleteSong fs s st store).1.favorites = st.favorites ∧
    (deleteSong fs s st store).1.playlists = st.playlists ∧
    (deleteSong fs s st store).2.1 = store := by
  have hstopc := deleteSongStopPhase_catalog s st
  have hfo : fileStepOk fs s (deleteSongStopPhase s st) = false := by
    unfold fileStepOk
    rw [hstopc.1, hfind]
    show (if fs.exa song.uri = true then fs.delOk song.uri else true) = false
    rw [if_pos hexa]
    exact hdel
  have hfail := deleteSongCommitPhase_fail fs s
    (deleteSongStopPhase s st) store hfo
  unfold deleteSong
  rw [hfail]
  exact ⟨rfl, hstopc.1, hstopc.2.1, hstopc.2.2, rfl⟩

/-- Witness for `deleteSong_filefail_aborts` on the single-song
catalog. -/
theorem deleteSong_filefail_aborts_witness :
    (stC3.songs.find? (fun x => x.id == "1")
      = some ⟨"1", "a.mp3", "u1"⟩) ∧
    fsFailDel.exa "u1" = true ∧ fsFailDel.delOk "u1" = false ∧
    (deleteSong fsFailDel "1" stC3 storeEmpty).2.2 = false ∧
    (deleteSong fsFailDel "1" stC3 storeEmpty).1.favorites
      = stC3.favorites := by
  have h := deleteSong_filefail_aborts fsFailDel stC3 storeEmpty "1"
    ⟨"1", "a.mp3", "u1"⟩ (by decide) rfl rfl
  exact ⟨by decide, rfl, rfl, h.1, h.2.2.1⟩

/-! ## C4: deleting the playing song stops the session first -/

/-- `stopSound` either leaves the state alone or resets the session. -/
theorem stopSound_session (st : AppState) :
    stopSound st = st ∨ (stopSound st).session = ⟨none, none, false, 0, 0⟩ := by
  unfold stopSound
  cases st.session.sound with
  | none => exact Or.inl rfl
  | some h => exact Or.inr rfl

/-- `SessionWF` transfers along states with the same session. -/
theorem sessionWF_of_session_eq {a b : AppState} (h : a.session = b.session)
    (hwf : SessionWF b) : SessionWF a := by
  unfold SessionWF at *
  rw [h]
  exact hwf

/-- A state whose session is the empty session is well formed. -/
theorem sessionWF_idle_state (st : AppState)
    (h : st.session = ⟨none, none, false, 0, 0⟩) : SessionWF st := by
  intro hc
  rw [h] at hc
  exact Bool.noConfusion hc

/-- `stopSound` preserves `SessionWF`. -/
theorem sessionWF_stopSound (st : AppState) (hwf : SessionWF st) :
    SessionWF (stopSound st) := by
  rcases stopSound_session st with heq | hidle
  · rw [heq]; exact hwf
  · exact sessionWF_idle_state _ hidle

/-- The release half of `playSong` preserves `SessionWF`. -/
theorem sessionWF_release (st : AppState) (hwf : SessionWF st) :
    SessionWF (playSongRelease st) := by
  unfold playSongRelease
  cases hs : st.session.sound with
  | none => exact hwf
  | some h => exact hwf

/-- `playSong` preserves `SessionWF` whether or not the engine call
succeeds. -/
theorem sessionWF_playSong (ok : Bool) (song : Song) (st : AppState)
    (hwf : SessionWF st) : SessionWF (playSong ok song st).1 := by
  cases ok with
  | true =>
      show SessionWF (playSongAcquire song (playSongRelease st))
      intro hc
      rfl
  | false =>
      show SessionWF (playSongRelease st)
      exact sessionWF_release st hwf

/-- The stop phase of `deleteSong` preserves `SessionWF`. -/
theorem sessionWF_stopPhase (sid : String) (st : AppState)
    (hwf : SessionWF st) : SessionWF (deleteSongStopPhase sid st) := by
  unfold deleteSongStopPhase
  cases hc : st.session.currentSong with
  | none => exact hwf
  | some c =>
      show SessionWF (if (c.id == sid) = true then stopSound st else st)
      by_cases hcs : (c.id == sid) = true
      · rw [if_pos hcs]; exact sessionWF_stopSound st hwf
      · rw [if_neg hcs]; exact hwf

/-- `deleteSong` preserves `SessionWF`. -/
theorem sessionWF_deleteSong (fs : FS) (sid : String) (st : AppState)
    (store : RawStore) (hwf : SessionWF st) :
    SessionWF (deleteSong fs sid st store).1 :=
  sessionWF_of_session_eq
    (deleteSongCommitPhase_session fs sid (deleteSongStopPhase sid st) store).1
    (sessionWF_stopPhase sid st hwf)

/-- `SessionWF` (a `sound` reference is held whenever `currentSong` is
set) is preserved by every UI entry point, so it holds in every
reachable state. -/
theorem sessionWF_step (st : AppState) (store : RawStore) (op : Op)
    (hwf : SessionWF st) : SessionWF (stepOp st store op).1 := by
  cases op with
  | play ok song =>
      show SessionWF (playSong ok song st).1
      exact sessionWF_playSong ok song st hwf
  | stop =>
      show SessionWF (stopSound st)
      exact sessionWF_stopSound st hwf
  | toggle =>
      show SessionWF (togglePlayPause st)
      unfold togglePlayPause
      cases hs : st.session.sound with
      | none => exact hwf
      | some h => exact fun hc => hwf hc
  | seek ms => exact hwf
  | del fs sid =>
      show SessionWF (deleteSong fs sid st store).1
      exact sessionWF_deleteSong fs sid st store hwf
  | togFav sid => exact hwf
  | newPl name newId =>
      show SessionWF (match createPlaylist name newId st.playlists with
        | Except.error _ => (st, store)
        | Except.ok pls =>
            ({ st with playlists := pls },
             { store with playlistsVal := StoredVal.good pls })).1
      cases createPlaylist name newId st.playlists with
      | error e => exact hwf
      | ok pls => exact hwf
  | delPl pid => exact hwf
  | addPl pid sid => exact hwf

/-- C4: in a well-formed state whose current song has id `s` and whose
catalog contains `s`, `deleteSong s` runs its stop phase first: after
that phase the session is already fully reset to Idle (`currentSong`
cleared, not playing, position and duration `0`) and the engine handle
released, while the catalog — song list included — is still untouched;
`deleteSong` is exactly the commit phase applied to that stopped state,
and the final session is still Idle. -/
theorem deleteSong_stops_first (fs : FS) (st : AppState)
    (store : RawStore) (s : String) (c : Song)
    (hcur : st.session.currentSong = some c) (hid : c.id = s)
    (hex : s ∈ st.songs.map Song.id) (hwf : SessionWF st) :
    (deleteSongStopPhase s st).session = idleSession ∧
    (deleteSongStopPhase s st).songs = st.songs ∧
    (deleteSongStopPhase s st).favorites = st.favorites ∧
    (deleteSongStopPhase s st).playlists = st.playlists ∧
    (∀ h, st.session.sound = some h →
      ∀ q ∈ (deleteSongStopPhase s st).engine.liveHandles, q.1 ≠ h) ∧
    deleteSong fs s st store
      = deleteSongCommitPhase fs s (deleteSongStopPhase s st) store ∧
    (deleteSong fs s st store).1.session = idleSession := by
  obtain ⟨h0, hs⟩ := Option.isSome_iff_exists.mp
    (hwf (by rw [hcur]; rfl))
  have hstopc := deleteSongStopPhase_catalog s st
  have hstop : deleteSongStopPhase s st = stopSound st := by
    unfold deleteSongStopPhase
    rw [hcur]
    exact if_pos (by simp [hid])
  have hss : stopSound st
      = { st with
          engine := { st.engine with
            liveHandles := st.engine.liveHandles.filter
              (fun p => p.1 != h0) },
          session := ⟨none, none, false, 0, 0⟩ } := by
    unfold stopSound
    rw [hs]
  have hidle : (deleteSongStopPhase s st).session = idleSession := by
    rw [hstop, hss]; rfl
  refine ⟨hidle, hstopc.1, hstopc.2.1, hstopc.2.2, ?_, rfl, ?_⟩
  · intro h1 hh1 q hq
    rw [hs] at hh1
    injection hh1 with hh1
    rw [hstop, hss] at hq
    have := (List.mem_filter.mp hq).2
    simp at this
    rw [hh1] at this
    exact this
  · have hsess := (deleteSongCommitPhase_session fs s
      (deleteSongStopPhase s st) store).1
    show (deleteSongCommitPhase fs s (deleteSongStopPhase s st) store).1.session
      = idleSession
    rw [hsess, hidle]

/-- Fixture: catalog with song `"1"` currently playing on handle 0. -/
def songA : Song := ⟨"1", "a.mp3", "u1"⟩

/-- State in which `songA` is loaded and playing. -/
def stC4 : AppState :=
  ⟨[songA], ["1"], [⟨"p1", "Mix", ["1"]⟩],
   ⟨some 0, some songA, true, 5, 9⟩, ⟨[(0, "1")], 1⟩⟩

/-- Witness for `deleteSong_stops_first`: deleting the playing song
`"1"` resets the session before the catalog loses the song. -/
theorem deleteSong_stops_first_witness :
    stC4.session.currentSong = some songA ∧ songA.id = "1" ∧
    ("1" ∈ stC4.songs.map Song.id) ∧ SessionWF stC4 ∧
    (deleteSongStopPhase "1" stC4).session = idleSession ∧
    (deleteSongStopPhase "1" stC4).songs = stC4.songs ∧
    (deleteSong fsOk "1" stC4 storeEmpty).1.session = idleSession := by
  have h := deleteSong_stops_first fsOk stC4 storeEmpty "1" songA
    rfl rfl (by decide) (by decide)
  exact ⟨rfl, rfl, by decide, by decide, h.1, h.2.1, h.2.2.2.2.2.2⟩

/-! ## C5: handle exclusivity -/

/-- Releasing the held handle empties the live set (under `EngineInv`,
every live handle is the held one). -/
theorem filter_out_handle (st : AppState) (h : Nat) (hinv : EngineInv st)
    (hs : st.session.sound = some h) :
    st.engine.liveHandles.filter (fun p => p.1 != h) = [] := by
  apply List.filter_eq_nil_iff.mpr
  intro p hp
  have hb := hinv.2 p hp
  rw [hs] at hb
  injection hb with hb
  rw [← hb]
  simp

/-- The release half of `playSong` leaves no live handle. -/
theorem playSongRelease_live (st : AppState) (hinv : EngineInv st) :
    (playSongRelease st).engine.liveHandles = [] := by
  unfold playSongRelease
  cases hs : st.session.sound with
  | none =>
      show st.engine.liveHandles = []
      cases hl : st.engine.liveHandles with
      | nil => rfl
      | cons p t =>
          have hb := hinv.2 p (by rw [hl]; exact List.mem_cons_self p t)
          rw [hs] at hb
          exact Option.noConfusion hb
  | some h =>
      show st.engine.liveHandles.filter (fun p => p.1 != h) = []
      exact filter_out_handle st h hinv hs

/-- The release half of `playSong` keeps the handle counter. -/
theorem playSongRelease_next (st : AppState) :
    (playSongRelease st).engine.nextHandle = st.engine.nextHandle := by
  unfold playSongRelease
  cases st.session.sound with
  | none => rfl
  | some h => rfl

/-- The release half of `playSong` does not touch the session. -/
theorem playSongRelease_session (st : AppState) :
    (playSongRelease st).session = st.session := by
  unfold playSongRelease
  cases st.session.sound with
  | none => rfl
  | some h => rfl

/-- `EngineInv` transfers along states with the same engine and held
handle. -/
theorem engineInv_of_eq {a b : AppState} (he : a.engine = b.engine)
    (hs : a.session.sound = b.session.sound) (hinv : EngineInv b) :
    EngineInv a := by
  unfold EngineInv at *
  rw [he, hs]
  exact hinv

/-- `playSong` preserves `EngineInv` on both outcomes. -/
theorem engineInv_playSong (ok : Bool) (song : Song) (st : AppState)
    (hinv : EngineInv st) : EngineInv (playSong ok song st).1 := by
  have hrel := playSongRelease_live st hinv
  cases ok with
  | true =>
      show EngineInv (playSongAcquire song (playSongRelease st))
      constructor
      · show ((playSongRelease st).engine.liveHandles
            ++ [((playSongRelease st).engine.nextHandle, song.id)]).length ≤ 1
        rw [hrel]
        simp
      · intro p hp
        have hp2 : p ∈ (playSongRelease st).engine.liveHandles
            ++ [((playSongRelease st).engine.nextHandle, song.id)] := hp
        rw [hrel] at hp2
        simp at hp2
        show some ((playSongRelease st).engine.nextHandle) = some p.1
        rw [hp2]
  | false =>
      show EngineInv (playSongRelease st)
      refine ⟨by rw [hrel]; simp, ?_⟩
      intro p hp
      rw [hrel] at hp
      exact absurd hp (List.not_mem_nil p)

/-- `stopSound` preserves `EngineInv`. -/
theorem engineInv_stopSound (st : AppState) (hinv : EngineInv st) :
    EngineInv (stopSound st) := by
  unfold stopSound
  cases hs : st.session.sound with
  | none => exact hinv
  | some h =>
      have hfo := filter_out_handle st h hinv hs
      constructor
      · show (st.engine.liveHandles.filter (fun p => p.1 != h)).length ≤ 1
        rw [hfo]
        simp
      · intro p hp
        have hp2 : p ∈ st.engine.liveHandles.filter (fun p => p.1 != h) := hp
        rw [hfo] at hp2
        exact absurd hp2 (List.not_mem_nil p)

/-- The stop phase of `deleteSong` preserves `EngineInv`. -/
theorem engineInv_stopPhase (sid : String) (st : AppState)
    (hinv : EngineInv st) : EngineInv (deleteSongStopPhase sid st) := by
  unfold deleteSongStopPhase
  cases hc : st.session.currentSong with
  | none => exact hinv
  | some c =>
      show EngineInv (if (c.id == sid) = true then stopSound st else st)
      by_cases hcs : (c.id == sid) = true
      · rw [if_pos hcs]; exact engineInv_stopSound st hinv
      · rw [if_neg hcs]; exact hinv

/-- Every UI entry point preserves `EngineInv` (I5 with bookkeeping). -/
theorem engineInv_step (st : AppState) (store : RawStore) (op : Op)
    (hinv : EngineInv st) : EngineInv (stepOp st store op).1 := by
  cases op with
  | play ok song =>
      show EngineInv (playSong ok song st).1
      exact engineInv_playSong ok song st hinv
  | stop =>
      show EngineInv (stopSound st)
      exact engineInv_stopSound st hinv
  | toggle =>
      show EngineInv (togglePlayPause st)
      unfold togglePlayPause
      cases hs : st.session.sound with
      | none => exact hinv
      | some h =>
          exact engineInv_of_eq rfl (by exact hs.symm ▸ rfl) hinv
  | seek ms => exact hinv
  | del fs sid =>
      show EngineInv (deleteSong fs sid st store).1
      have h2 := deleteSongCommitPhase_session fs sid
        (deleteSongStopPhase sid st) store
      refine engineInv_of_eq h2.2 ?_ (engineInv_stopPhase sid st hinv)
      show (deleteSongCommitPhase fs sid (deleteSongStopPhase sid st)
        store).1.session.sound = (deleteSongStopPhase sid st).session.sound
      rw [h2.1]
  | togFav sid => exact hinv
  | newPl name newId =>
      show EngineInv (match createPlaylist name newId st.playlists with
        | Except.error _ => (st, store)
        | Except.ok pls =>
            ({ st with playlists := pls },
             { store with playlistsVal := StoredVal.good pls })).1
      cases createPlaylist name newId st.playlists with
      | error e => exact hinv
      | ok pls => exact hinv
  | delPl pid => exact hinv
  | addPl pid sid => exact hinv

/-- `EngineInv` holds after any sequence of UI actions. -/
theorem engineInv_runOps (ops : List Op) (st : AppState)
    (store : RawStore) (hinv : EngineInv st) :
    EngineInv (runOps st store ops).1 := by
  induction ops generalizing st store with
  | nil => exact hinv
  | cons op rest ih =>
      show EngineInv (runOps (stepOp st store op).1 (stepOp st store op).2
        rest).1
      exact ih (stepOp st store op).1 (stepOp st store op).2
        (engineInv_step st store op hinv)

/-- C5: playing song A then song B with no intervening stop releases A's
handle first (after the release half of the second play no handle is
live and only then is B's handle created), leaving exactly one live
handle, bound to B, with `currentSong = B` and `sound` holding that
handle; and after any sequence of UI actions at most one engine handle
is live (I5). -/
theorem play_twice_single_handle :
    (∀ (st : AppState) (A B : Song), EngineInv st →
      (playSong true A st).1.engine.liveHandles
          = [(st.engine.nextHandle, A.id)] ∧
      (playSongRelease (playSong true A st).1).engine.liveHandles = [] ∧
      playSong true B (playSong true A st).1
        = (playSongAcquire B (playSongRelease (playSong true A st).1),
           true) ∧
      (playSong true B (playSong true A st).1).1.engine.liveHandles
        = [((playSong true A st).1.engine.nextHandle, B.id)] ∧
      (playSong true B (playSong true A st).1).1.session.currentSong
        = some B ∧
      (playSong true B (playSong true A st).1).1.session.sound
        = some (playSong true A st).1.engine.nextHandle) ∧
    (∀ (ops : List Op) (st : AppState) (store : RawStore), EngineInv st →
      EngineInv (runOps st store ops).1 ∧
      (runOps st store ops).1.engine.liveHandles.length ≤ 1) := by
  constructor
  · intro st A B hinv
    have hinv1 : EngineInv (playSong true A st).1 :=
      engineInv_playSong true A st hinv
    have hlive1 : (playSong true A st).1.engine.liveHandles
        = [(st.engine.nextHandle, A.id)] := by
      show ((playSongRelease st).engine.liveHandles
        ++ [((playSongRelease st).engine.nextHandle, A.id)])
        = [(st.engine.nextHandle, A.id)]
      rw [playSongRelease_live st hinv, playSongRelease_next st]
      rfl
    have hlive2 : (playSong true B (playSong true A st).1).1.engine.liveHandles
        = [((playSong true A st).1.engine.nextHandle, B.id)] := by
      show ((playSongRelease (playSong true A st).1).engine.liveHandles
        ++ [((playSongRelease (playSong true A st).1).engine.nextHandle,
             B.id)])
        = [((playSong true A st).1.engine.nextHandle, B.id)]
      rw [playSongRelease_live (playSong true A st).1 hinv1,
        playSongRelease_next (playSong true A st).1]
      rfl
    refine ⟨hlive1, playSongRelease_live (playSong true A st).1 hinv1,
      rfl, hlive2, rfl, ?_⟩
    show some ((playSongRelease (playSong true A st).1).engine.nextHandle)
      = some (playSong true A st).1.engine.nextHandle
    rw [playSongRelease_next]
  · intro ops st store hinv
    have h := engineInv_runOps ops st store hinv
    exact ⟨h, h.1⟩

/-- Fixture: a second song for two-song scenarios. -/
def songB : Song := ⟨"2", "b.mp3", "u2"⟩

/-- Fixture: the freshly started app state (empty catalog, idle). -/
def stEmpty : AppState := ⟨[], [], [], idleSession, engine0⟩

/-- Witness for `play_twice_single_handle`: from the fresh state, play
song `"1"` then song `"2"`; exactly handle 1 bound to `"2"` is live. -/
theorem play_twice_single_handle_witness :
    EngineInv stEmpty ∧
    (playSong true songB (playSong true songA stEmpty).1).1.engine.liveHandles
      = [(1, "2")] ∧
    (playSong true songB (playSong true songA stEmpty).1).1.session.currentSong
      = some songB ∧
    EngineInv (runOps stEmpty storeEmpty
      [Op.play true songA, Op.play true songB, Op.stop]).1 := by
  have h := play_twice_single_handle.1 stEmpty songA songB (by decide)
  have h2 := (play_twice_single_handle.2
    [Op.play true songA, Op.play true songB, Op.stop]
    stEmpty storeEmpty (by decide)).1
  refine ⟨by decide, ?_, h.2.2.2.2.1, h2⟩
  rw [h.2.2.2.1]
  decide

/-! ## C6: engine creation failure -/

/-- C6 counterexample: with song `"1"` playing, a failed engine creation
while trying to play song `"2"` leaves `currentSong` still set to song
`"1"` and `isPlaying` still `true` — the session is not left in Idle as
claimed (the state variables are untouched by the `catch`). -/
theorem playSong_fail_cex :
    (playSong false songB stC4).2 = false ∧
    (playSong false songB stC4).1.session.currentSong = some songA ∧
    (playSong false songB stC4).1.session.isPlaying = true := by decide

/-- C6 amended: under the handle invariant, a failed engine creation
surfaces the failure and leaves no live (or half-initialized) engine
handle — any previously live handle has already been released, so I5 is
preserved — but the session state variables are left exactly as they
were before the call (in particular a session that was Idle stays
Idle); they are not reset to Idle in general. -/
theorem playSong_fail_no_handle (st : AppState) (song : Song)
    (hinv : EngineInv st) :
    (playSong false song st).2 = false ∧
    (playSong false song st).1.engine.liveHandles = [] ∧
    (playSong false song st).1.session = st.session ∧
    (st.session = ⟨none, none, false, 0, 0⟩ →
      (playSong false song st).1.session = ⟨none, none, false, 0, 0⟩) := by
  have hsess : (playSong false song st).1.session = st.session :=
    playSongRelease_session st
  exact ⟨rfl, playSongRelease_live st hinv, hsess,
    fun h => by rw [hsess, h]⟩

/-- Witness for `playSong_fail_no_handle` on the playing state: the
failure is reported, no handle stays live, the session is untouched. -/
theorem playSong_fail_no_handle_witness :
    EngineInv stC4 ∧
    (playSong false songB stC4).2 = false ∧
    (playSong false songB stC4).1.engine.liveHandles = [] ∧
    (playSong false songB stC4).1.session = stC4.session := by
  have h := playSong_fail_no_handle stC4 songB (by decide)
  exact ⟨by decide, h.1, h.2.1, h.2.2.1⟩

/-! ## C1: no reconciliation of favorites/playlists at load -/

/-- Fixture: a store whose favorites and playlists hold dangling ids
(`"zz"` and `"x"` are not ids of any stored song). -/
def storeC1 : RawStore :=
  ⟨.good [⟨"1", "a.mp3", "u1"⟩], .good ["1", "zz"],
   .good [⟨"p1", "Mix", ["1", "x"]⟩]⟩

/-- C1 counterexample: loading `storeC1` (all files present) returns the
favorites and playlists verbatim — the dangling ids `"zz"` and `"x"`
are not pruned — and writes nothing back to the store. -/
theorem load_no_prune_cex :
    (loadSavedData (fun _ => true) storeC1).1.songs.map Song.id = ["1"] ∧
    (loadSavedData (fun _ => true) storeC1).1.favorites = ["1", "zz"] ∧
    (loadSavedData (fun _ => true) storeC1).1.playlists
      = [⟨"p1", "Mix", ["1", "x"]⟩] ∧
    (loadSavedData (fun _ => true) storeC1).2 = storeC1 := by decide

/-- C1 amended: `loadSavedData` performs no favorites/playlists
reconciliation: when all three keys parse, favorites and playlists are
returned exactly as stored (dangling ids included) and their store keys
are untouched; only the song list is existence-filtered, and the songs
key is re-persisted with the filtered list (which equals the stored one
when nothing was dropped). -/
theorem load_verbatim (fe : String → Bool) (store : RawStore)
    (saved : List Song) (fav : List String) (pls : List Playlist)
    (hs : store.songsVal = .good saved)
    (hf : store.favoritesVal = .good fav)
    (hp : store.playlistsVal = .good pls) :
    (loadSavedData fe store).1
      = ⟨saved.filter (fun s => fe s.uri), fav, pls⟩ ∧
    (loadSavedData fe store).2.songsVal
      = .good (saved.filter (fun s => fe s.uri)) ∧
    (loadSavedData fe store).2.favoritesVal = .good fav ∧
    (loadSavedData fe store).2.playlistsVal = .good pls := by
  unfold loadSavedData
  rw [hs]
  dsimp only
  by_cases hlen : ((saved.filter (fun s => fe s.uri)).length
      != saved.length) = true
  · rw [if_pos hlen]
    unfold loadFavoritesStep
    rw [hf]
    unfold loadPlaylistsStep
    rw [hp]
    exact ⟨rfl, rfl, rfl, rfl⟩
  · rw [if_neg hlen]
    have heq : saved.filter (fun s => fe s.uri) = saved := by
      apply filter_eq_of_length_eq
      simpa using hlen
    unfold loadFavoritesStep
    rw [hf]
    unfold loadPlaylistsStep
    rw [hp]
    refine ⟨rfl, ?_, hf, hp⟩
    show store.songsVal = StoredVal.good (saved.filter (fun s => fe s.uri))
    rw [hs, heq]

/-- Witness for `load_verbatim` at `storeC1`. -/
theorem load_verbatim_witness :
    storeC1.songsVal = .good [⟨"1", "a.mp3", "u1"⟩] ∧
    storeC1.favoritesVal = .good ["1", "zz"] ∧
    storeC1.playlistsVal = .good [⟨"p1", "Mix", ["1", "x"]⟩] ∧
    (loadSavedData (fun _ => true) storeC1).1
      = ⟨[⟨"1", "a.mp3", "u1"⟩], ["1", "zz"],
         [⟨"p1", "Mix", ["1", "x"]⟩]⟩ := by
  have h := load_verbatim (fun _ => true) storeC1 [⟨"1", "a.mp3", "u1"⟩]
    ["1", "zz"] [⟨"p1", "Mix", ["1", "x"]⟩] rfl rfl rfl
  refine ⟨rfl, rfl, rfl, ?_⟩
  rw [h.1]
  decide

/-! ## C9: load is sequential, not per-key independent -/

/-- Fixture: corrupt favorites next to a perfectly valid playlists
value. -/
def storeC9 : RawStore :=
  ⟨.missing, .corrupt, .good [⟨"p2", "Chill", ["7"]⟩]⟩

/-- C9 counterexample: the stored playlists value is present and valid,
but because the favorites value is corrupt the single `catch` aborts the
load and the playlists stay at the empty default — a corrupt favorites
value does prevent a valid playlists value from being loaded. -/
theorem load_dependent_cex :
    storeC9.playlistsVal = .good [⟨"p2", "Chill", ["7"]⟩] ∧
    (loadSavedData (fun _ => true) storeC9).1.playlists = [] := by decide

/-- In-memory outcome of the favorites/playlists blocks: favorites
default on a missing or corrupt value, and playlists additionally
default whenever the favorites value was corrupt (the block is never
reached). -/
theorem loadFavoritesStep_mem (songsAcc : List Song) (store : RawStore) :
    (loadFavoritesStep songsAcc store).1
      = ⟨songsAcc,
          (if store.favoritesVal = .corrupt then []
           else store.favoritesVal.getD []),
          (if store.favoritesVal = .corrupt ∨ store.playlistsVal = .corrupt
           then [] else store.playlistsVal.getD [])⟩ := by
  obtain ⟨sv, fv, pv⟩ := store
  cases fv <;> cases pv <;>
    simp [loadFavoritesStep, loadPlaylistsStep, StoredVal.getD]

/-- The in-memory result of the favorites block only depends on the
favorites and playlists values of the store it reads. -/
theorem loadFavoritesStep_congr (songsAcc : List Song)
    (s1 s2 : RawStore) (hf : s1.favoritesVal = s2.favoritesVal)
    (hp : s1.playlistsVal = s2.playlistsVal) :
    (loadFavoritesStep songsAcc s1).1
      = (loadFavoritesStep songsAcc s2).1 := by
  rw [loadFavoritesStep_mem, loadFavoritesStep_mem, hf, hp]

/-- For a non-corrupt songs value, the in-memory result of a load is the
favorites block applied to the existence-filtered song list. -/
theorem loadSavedData_mem1 (fe : String → Bool) (store : RawStore)
    (hs : store.songsVal ≠ .corrupt) :
    (loadSavedData fe store).1
      = (loadFavoritesStep ((store.songsVal.getD []).filter
          (fun s => fe s.uri)) store).1 := by
  obtain ⟨sv, fv, pv⟩ := store
  cases sv with
  | corrupt => exact absurd rfl hs
  | missing => rfl
  | good saved =>
      show (loadSavedData fe ⟨.good saved, fv, pv⟩).1 = _
      unfold loadSavedData
      dsimp only
      by_cases hlen : ((saved.filter (fun s => fe s.uri)).length
          != saved.length) = true
      · rw [if_pos hlen]
        exact loadFavoritesStep_congr _ _ _ rfl rfl
      · rw [if_neg hlen]
        rfl

/-- C9 amended: `load` is sequential inside one `try`/`catch`, not
per-key independent.  A missing key does yield the empty default for
that structure alone, and when no stored value is corrupt the three
structures load independently; but a corrupt (unparseable) value aborts
the whole block: a corrupt songs value leaves all three at their
defaults, a corrupt favorites value also wipes out a valid playlists
value, and a corrupt playlists value empties only the playlists. -/
theorem load_per_key (fe : String → Bool) (store : RawStore) :
    (store.songsVal ≠ .corrupt → store.favoritesVal ≠ .corrupt →
      store.playlistsVal ≠ .corrupt →
      (loadSavedData fe store).1
        = ⟨(store.songsVal.getD []).filter (fun s => fe s.uri),
           store.favoritesVal.getD [], store.playlistsVal.getD []⟩) ∧
    (store.songsVal = .corrupt →
      (loadSavedData fe store).1 = ⟨[], [], []⟩) ∧
    (store.songsVal ≠ .corrupt → store.favoritesVal = .corrupt →
      (loadSavedData fe store).1
        = ⟨(store.songsVal.getD []).filter (fun s => fe s.uri), [], []⟩) ∧
    (store.songsVal ≠ .corrupt → store.favoritesVal ≠ .corrupt →
      store.playlistsVal = .corrupt →
      (loadSavedData fe store).1
        = ⟨(store.songsVal.getD []).filter (fun s => fe s.uri),
           store.favoritesVal.getD [], []⟩) := by
  refine ⟨?_, ?_, ?_, ?_⟩
  · intro h1 h2 h3
    rw [loadSavedData_mem1 fe store h1, loadFavoritesStep_mem]
    simp [h2, h3]
  · intro h1
    obtain ⟨sv, fv, pv⟩ := store
    have h1x : sv = .corrupt := h1
    subst h1x
    rfl
  · intro h1 h2
    rw [loadSavedData_mem1 fe store h1, loadFavoritesStep_mem]
    simp [h2]
  · intro h1 h2 h3
    rw [loadSavedData_mem1 fe store h1, loadFavoritesStep_mem]
    simp [h2, h3]

/-- Witness for `load_per_key`: the corrupt-favorites store and the
all-missing store. -/
theorem load_per_key_witness :
    storeC9.songsVal ≠ .corrupt ∧ storeC9.favoritesVal = .corrupt ∧
    (loadSavedData (fun _ => true) storeC9).1 = ⟨[], [], []⟩ ∧
    storeEmpty.songsVal ≠ .corrupt ∧
    (loadSavedData (fun _ => true) storeEmpty).1 = ⟨[], [], []⟩ := by
  have h9 := (load_per_key (fun _ => true) storeC9).2.2.1 (by decide) rfl
  have he := (load_per_key (fun _ => true) storeEmpty).1
    (by decide) (by decide) (by decide)
  refine ⟨by decide, rfl, ?_, by decide, ?_⟩
  · rw [h9]; decide
  · rw [he]; decide
